import Mathlib

/-!
Shallow embedding of the `xl` spreadsheet-transliteration tool (main.go).
The program reads a workbook (a list of sheets, each sheet an ordered list
of columns, each column an ordered list of cell strings), builds either a
Mapping Table (header to data cells) or a Matrix Table (columns verbatim),
and serializes the result as JSON, Go syntax, or CSV; CSV output transposes
the column-major Matrix Table of the workbook's first sheet into a
row-major grid.  File I/O and the excelize backend are external: the
workbook is the abstract input.
-/

namespace Xl

/-- Output mode enumeration (main.go lines 18-25). -/
inductive Mode where
  | Map
  | MultiSheet
  | Matrix
  | Stats
deriving DecidableEq, Repr

/-- Command-line configuration flags (main.go lines 27-41). -/
structure Config where
  allSheets : Bool
  useSheet : String
  noColNames : Bool
  stripColNames : Bool
  tableMode : Bool
  statsMode : Bool
  asJson : Bool
  asGo : Bool
  asCSV : Bool
deriving Repr

/-- Mode resolution from flags (main.go lines 44, 53-61): start from Map,
set Matrix when table-mode, striptitles or csv is set, then override with
Stats when stats is set, then override with Stats when no output format
(json/go/csv) is requested. -/
def resolveMode (cfg : Config) : Mode :=
  let mode := Mode.Map
  let mode := if cfg.tableMode || cfg.stripColNames || cfg.asCSV then Mode.Matrix else mode
  let mode := if cfg.statsMode then Mode.Stats else mode
  let mode := if !cfg.asJson && !cfg.asGo && !cfg.asCSV then Mode.Stats else mode
  mode

/-- A sheet: its name and its ordered columns, each an ordered list of
cell strings (the Column Source abstraction over excelize). -/
structure Sheet where
  name : String
  cols : List (List String)
deriving Repr, Inhabited

/-- Fatal errors raised inside the processing loop or after it
(main.go lines 114, 147). -/
inductive Err where
  | mapEmptyCol (colIdx : Nat) (sheet : String)
  | sheetNotFound (name : String)
deriving DecidableEq, Repr

/-- The always-on diagnostic line written to stderr (main.go line 144). -/
structure Diag where
  nSheets : Nat
  nCols : Nat
  nElements : Nat
  rowSize : Nat
deriving DecidableEq, Repr

/-- A unit of content written to the primary output stream: the per-column
stats line (main.go line 132) or one serialized document
(main.go lines 151-208). -/
inductive OutLine where
  | colName (name : String) (colIdx : Nat) (nrows : Nat)
  | jsonMap (tab : String → String → Option (List String))
  | jsonMat (mat : String → List (List String))
  | goMap (tab : String → String → Option (List String))
  | goMat (mat : String → List (List String))
  | csv (grid : List (List String))

/-- In-memory state of main's processing loop: bookTab and bookMat model
the Go maps (absent key reads as none resp. the empty slice), plus the
statistics counters (main.go lines 44-46, 85-89). -/
structure RunState where
  bookTab : String → String → Option (List String)
  bookMat : String → List (List String)
  nSheets : Nat
  nCols : Nat
  nRows : Nat
  rowSize : Nat
  sheetFound : Bool
  outLines : List OutLine

/-- Initial loop state (main.go lines 44-46, 85-89). -/
def initState : RunState :=
  { bookTab := fun _ _ => none
    bookMat := fun _ => []
    nSheets := 0
    nCols := 0
    nRows := 0
    rowSize := 0
    sheetFound := false
    outLines := [] }

/-- Go map write bookTab[sheet][key] = v: update the inner map of one
sheet, leaving every other sheet's map untouched. -/
def updTab (tab : String → String → Option (List String)) (sheetName key : String)
    (v : List String) : String → String → Option (List String) :=
  fun s => if s = sheetName then fun k => if k = key then some v else tab sheetName k
           else tab s

/-- Go strings.TrimSpace on the character list: drop leading and trailing
whitespace (only its length is consumed, at main.go line 130). -/
def trimSpace (s : String) : List Char :=
  ((s.data.dropWhile Char.isWhitespace).reverse.dropWhile Char.isWhitespace).reverse

/-- The inner row loop over a column's cells (main.go lines 129-136):
counts every cell into nRows and, for a non-blank cell at index 0 when
titles are expected, prints a per-column line when the mode is Stats. -/
def rowLoopAux (cfg : Config) (mode : Mode) (colLen : Nat) :
    RunState → List String → Nat → RunState
  | st, [], _ => st
  | st, rowCell :: rest, rowi =>
    let printed : List OutLine :=
      if !cfg.noColNames && rowi == 0 && (trimSpace rowCell).length > 0 then
        if mode = Mode.Stats then [OutLine.colName rowCell (st.nCols - 1) colLen] else []
      else []
    rowLoopAux cfg mode colLen
      { st with outLines := st.outLines ++ printed, nRows := st.nRows + 1 } rest (rowi + 1)

/-- Row loop entry point starting at cell index 0. -/
def rowLoop (cfg : Config) (mode : Mode) (st : RunState) (col : List String) : RunState :=
  rowLoopAux cfg mode col.length st col 0

/-- Processing of one column (main.go lines 102-137): bump nCols, record
the column length as rowSize, build the configured shape (Map mode fails
fatally on an empty column; Matrix mode appends the column verbatim;
Stats mode builds nothing), then run the row loop. -/
def stepCol (cfg : Config) (mode : Mode) (sheetName : String) (st : RunState)
    (col : List String) : Except Err RunState :=
  let st := { st with nCols := st.nCols + 1, rowSize := col.length }
  let shaped : Except Err RunState :=
    match mode with
    | Mode.Map =>
      if col.length < 1 then
        Except.error (Err.mapEmptyCol (st.nCols - 1) sheetName)
      else if col.length < 2 then
        Except.ok { st with bookTab := updTab st.bookTab sheetName (col.headD "") [] }
      else
        Except.ok { st with bookTab := updTab st.bookTab sheetName (col.headD "") col.tail }
    | Mode.Matrix =>
      Except.ok { st with
        bookMat := fun s => if s = sheetName then st.bookMat sheetName ++ [col]
                            else st.bookMat s }
    | _ => Except.ok st
  match shaped with
  | Except.error e => Except.error e
  | Except.ok st => Except.ok (rowLoop cfg mode st col)

/-- Processing of one selected sheet (main.go lines 95-137): mark the sheet
found, reset its bookTab and bookMat entries, bump nSheets, then fold the
column processing over its columns. -/
def processSheet (cfg : Config) (mode : Mode) (st : RunState) (sheet : Sheet) :
    Except Err RunState :=
  let st := { st with
    sheetFound := true
    bookTab := fun s => if s = sheet.name then fun _ => none else st.bookTab s
    bookMat := fun s => if s = sheet.name then [] else st.bookMat s
    nSheets := st.nSheets + 1 }
  sheet.cols.foldlM (stepCol cfg mode sheet.name) st

/-- The sheet loop (main.go lines 91-142): skip sheets not matching an
explicit sheet request; after processing a sheet, stop unless -all is set. -/
def sheetLoop (cfg : Config) (mode : Mode) : RunState → List Sheet → Except Err RunState
  | st, [] => Except.ok st
  | st, sheet :: rest =>
    if cfg.useSheet ≠ "" ∧ sheet.name ≠ cfg.useSheet then
      sheetLoop cfg mode st rest
    else
      match processSheet cfg mode st sheet with
      | Except.error e => Except.error e
      | Except.ok st' =>
        if !cfg.allSheets then Except.ok st' else sheetLoop cfg mode st' rest

/-- Maximum column length scan of the CSV block (main.go lines 184-189). -/
def maxColLen (records : List (List String)) : Nat :=
  records.foldl (fun n col => if col.length > n then col.length else n) 0

/-- Grid allocation (main.go lines 191-194): nRows rows of nCols empty
strings. -/
def emptyGrid (nRows nCols : Nat) : List (List String) :=
  List.replicate nRows (List.replicate nCols "")

/-- Single assignment tab[ri][ci] = v on the grid; indices written by the
CSV fill loop are always in range. -/
def setCell (g : List (List String)) (ri ci : Nat) (v : String) : List (List String) :=
  match g[ri]? with
  | some row => g.set ri (row.set ci v)
  | none => g

/-- Inner CSV fill loop over one column's cells (main.go lines 197-202):
copy cell ri into tab[ri][ci], skipping index 0 when -notitles is set. -/
def fillColAux (noColNames : Bool) (ci : Nat) :
    List (List String) → List String → Nat → List (List String)
  | g, [], _ => g
  | g, cell :: rest, ri =>
    let g := if noColNames && ri == 0 then g else setCell g ri ci cell
    fillColAux noColNames ci g rest (ri + 1)

/-- Outer CSV fill loop over the columns (main.go lines 196-203). -/
def fillCols (noColNames : Bool) :
    List (List String) → List (List String) → Nat → List (List String)
  | g, [], _ => g
  | g, col :: rest, ci => fillCols noColNames (fillColAux noColNames ci g col 0) rest (ci + 1)

/-- The whole CSV transposition (main.go lines 181-203): allocate a
maxColLen x length grid of empty strings and fill it column by column. -/
def csvGrid (noColNames : Bool) (records : List (List String)) : List (List String) :=
  let nRows := maxColLen records
  let nCols := records.length
  let tab := emptyGrid nRows nCols
  fillCols noColNames tab records 0

/-- Serialization after the loop (main.go lines 151-208): JSON first, then
Go syntax, then CSV; the CSV block always transposes the bookMat entry of
the workbook's first sheet (sheets[0], main.go line 179). -/
def serialize (cfg : Config) (mode : Mode) (st : RunState) (sheets : List Sheet) :
    List OutLine :=
  if cfg.asJson then
    match mode with
    | Mode.Matrix => [OutLine.jsonMat st.bookMat]
    | Mode.Map => [OutLine.jsonMap st.bookTab]
    | _ => []
  else if cfg.asGo then
    match mode with
    | Mode.Matrix => [OutLine.goMat st.bookMat]
    | Mode.Map => [OutLine.goMap st.bookTab]
    | _ => []
  else if cfg.asCSV then
    [OutLine.csv (csvGrid cfg.noColNames (st.bookMat (sheets.headD default).name))]
  else []

/-- Observable outcome of one run: the stderr info lines, the fatal error
if any, the bytes delivered to the primary output (nothing is flushed on a
fatal exit, main.go lines 77, 223), and the final in-memory state. -/
structure Outcome where
  diag : List Diag
  err : Option Err
  primary : List OutLine
  final : Option RunState

/-- The whole run on an already-opened workbook (main.go lines 84-208):
run the sheet loop, print the info line, fail when an explicitly requested
sheet was never found, otherwise serialize per the flags. -/
def runMain (cfg : Config) (sheets : List Sheet) : Outcome :=
  let mode := resolveMode cfg
  match sheetLoop cfg mode initState sheets with
  | Except.error e => { diag := [], err := some e, primary := [], final := none }
  | Except.ok st =>
    let d : Diag :=
      { nSheets := st.nSheets, nCols := st.nCols, nElements := st.nRows, rowSize := st.rowSize }
    if st.sheetFound then
      { diag := [d], err := none,
        primary := st.outLines ++ serialize cfg mode st sheets, final := some st }
    else
      { diag := [d], err := some (Err.sheetNotFound cfg.useSheet), primary := [],
        final := some st }

/-- Mapping-table lookup in the final state, none when the run failed. -/
def Outcome.tabAt (o : Outcome) (s k : String) : Option (List String) :=
  match o.final with
  | some st => st.bookTab s k
  | none => none

/-- Matrix-table lookup in the final state, empty when the run failed. -/
def Outcome.matAt (o : Outcome) (s : String) : List (List String) :=
  match o.final with
  | some st => st.bookMat s
  | none => []

/-- The CSV grids among the delivered primary output lines. -/
def Outcome.csvGrids (o : Outcome) : List (List (List String)) :=
  o.primary.filterMap fun l =>
    match l with
    | OutLine.csv g => some g
    | _ => none

/-- Cell read grid[r][c] with empty-string default. -/
def gridCell (g : List (List String)) (r c : Nat) : String :=
  (g.getD r []).getD c ""

/-- Every row of the grid has width C (the allocation invariant of the
CSV block). -/
def gridWF (g : List (List String)) (C : Nat) : Prop :=
  ∀ row ∈ g, row.length = C

/-- Baseline configuration with every flag off, all strings empty. -/
def cfgBase : Config :=
  { allSheets := false
    useSheet := ""
    noColNames := false
    stripColNames := false
    tableMode := false
    statsMode := false
    asJson := false
    asGo := false
    asCSV := false }

lemma rowLoopAux_fields (cfg : Config) (mode : Mode) (colLen : Nat) :
    ∀ (cells : List String) (st : RunState) (rowi : Nat),
    (rowLoopAux cfg mode colLen st cells rowi).bookTab = st.bookTab ∧
    (rowLoopAux cfg mode colLen st cells rowi).bookMat = st.bookMat ∧
    (rowLoopAux cfg mode colLen st cells rowi).nCols = st.nCols ∧
    (rowLoopAux cfg mode colLen st cells rowi).rowSize = st.rowSize ∧
    (rowLoopAux cfg mode colLen st cells rowi).nSheets = st.nSheets ∧
    (rowLoopAux cfg mode colLen st cells rowi).sheetFound = st.sheetFound ∧
    (rowLoopAux cfg mode colLen st cells rowi).nRows = st.nRows + cells.length := by
  intro cells
  induction cells with
  | nil => intro st rowi; simp [rowLoopAux]
  | cons c cs ih =>
    intro st rowi
    simp only [rowLoopAux]
    refine ⟨(ih _ _).1, (ih _ _).2.1, (ih _ _).2.2.1, (ih _ _).2.2.2.1,
      (ih _ _).2.2.2.2.1, (ih _ _).2.2.2.2.2.1, ?_⟩
    rw [(ih _ _).2.2.2.2.2.2]
    simp only [List.length_cons]
    omega

lemma rowLoopAux_outLines (cfg : Config) (mode : Mode) (colLen : Nat)
    (hm : mode ≠ Mode.Stats) :
    ∀ (cells : List String) (st : RunState) (rowi : Nat),
    (rowLoopAux cfg mode colLen st cells rowi).outLines = st.outLines := by
  intro cells
  induction cells with
  | nil => intro st rowi; rfl
  | cons c cs ih =>
    intro st rowi
    simp only [rowLoopAux]
    rw [ih]
    simp [if_neg hm]

lemma stepCol_map_eq (cfg : Config) (sheetName : String) (st : RunState)
    (hd : String) (tl : List String) :
    stepCol cfg Mode.Map sheetName st (hd :: tl) =
      Except.ok (rowLoop cfg Mode.Map
        { st with nCols := st.nCols + 1, rowSize := (hd :: tl).length,
                  bookTab := updTab st.bookTab sheetName hd tl } (hd :: tl)) := by
  cases tl with
  | nil => rfl
  | cons t ts => rfl

lemma stepCol_map_nil (cfg : Config) (sheetName : String) (st : RunState) :
    stepCol cfg Mode.Map sheetName st [] =
      Except.error (Err.mapEmptyCol (st.nCols + 1 - 1) sheetName) := rfl

lemma stepCol_matrix_eq (cfg : Config) (sheetName : String) (st : RunState)
    (col : List String) :
    stepCol cfg Mode.Matrix sheetName st col =
      Except.ok (rowLoop cfg Mode.Matrix
        { st with nCols := st.nCols + 1, rowSize := col.length,
                  bookMat := fun s => if s = sheetName then st.bookMat sheetName ++ [col]
                             else st.bookMat s } col) := rfl

lemma stepCol_stats_eq (cfg : Config) (sheetName : String) (st : RunState)
    (col : List String) :
    stepCol cfg Mode.Stats sheetName st col =
      Except.ok (rowLoop cfg Mode.Stats
        { st with nCols := st.nCols + 1, rowSize := col.length } col) := rfl

lemma stepCol_multi_eq (cfg : Config) (sheetName : String) (st : RunState)
    (col : List String) :
    stepCol cfg Mode.MultiSheet sheetName st col =
      Except.ok (rowLoop cfg Mode.MultiSheet
        { st with nCols := st.nCols + 1, rowSize := col.length } col) := rfl

lemma updTab_self (tab : String → String → Option (List String)) (n k : String)
    (v : List String) : updTab tab n k v n k = some v := by
  simp [updTab]

lemma updTab_other_key (tab : String → String → Option (List String)) (n k : String)
    (v : List String) (k' : String) (h : k' ≠ k) : updTab tab n k v n k' = tab n k' := by
  simp [updTab, h]

lemma updTab_other_sheet (tab : String → String → Option (List String)) (n k : String)
    (v : List String) (s : String) (h : s ≠ n) : updTab tab n k v s = tab s := by
  simp [updTab, h]

lemma stepCol_map_ok (cfg : Config) (sheetName : String) (st : RunState)
    (hd : String) (tl : List String) :
    ∃ st', stepCol cfg Mode.Map sheetName st (hd :: tl) = Except.ok st' ∧
      st'.bookTab = updTab st.bookTab sheetName hd tl := by
  refine ⟨_, stepCol_map_eq cfg sheetName st hd tl, ?_⟩
  exact (rowLoopAux_fields cfg Mode.Map (hd :: tl).length (hd :: tl) _ 0).1

lemma exceptOkBind {α β : Type} (a : α) (f : α → Except Err β) :
    (Except.ok a : Except Err α) >>= f = f a := rfl

lemma exceptErrBind {α β : Type} (e : Err) (f : α → Except Err β) :
    (Except.error e : Except Err α) >>= f = Except.error e := rfl

lemma stepCol_counts {cfg : Config} {mode : Mode} {sheetName : String} {st st' : RunState}
    {col : List String} (h : stepCol cfg mode sheetName st col = Except.ok st') :
    st'.nCols = st.nCols + 1 ∧ st'.nRows = st.nRows + col.length ∧
    st'.rowSize = col.length ∧ st'.nSheets = st.nSheets ∧
    st'.sheetFound = st.sheetFound := by
  cases mode with
  | Map =>
    cases col with
    | nil => rw [stepCol_map_nil] at h; exact absurd h (by simp)
    | cons hd tl =>
      rw [stepCol_map_eq] at h
      injection h with h
      subst h
      obtain ⟨_, _, h3, h4, h5, h6, h7⟩ :=
        rowLoopAux_fields cfg Mode.Map (hd :: tl).length (hd :: tl) _ 0
      exact ⟨h3, h7, h4, h5, h6⟩
  | Matrix =>
    rw [stepCol_matrix_eq] at h
    injection h with h
    subst h
    obtain ⟨_, _, h3, h4, h5, h6, h7⟩ := rowLoopAux_fields cfg Mode.Matrix col.length col _ 0
    exact ⟨h3, h7, h4, h5, h6⟩
  | Stats =>
    rw [stepCol_stats_eq] at h
    injection h with h
    subst h
    obtain ⟨_, _, h3, h4, h5, h6, h7⟩ := rowLoopAux_fields cfg Mode.Stats col.length col _ 0
    exact ⟨h3, h7, h4, h5, h6⟩
  | MultiSheet =>
    rw [stepCol_multi_eq] at h
    injection h with h
    subst h
    obtain ⟨_, _, h3, h4, h5, h6, h7⟩ :=
      rowLoopAux_fields cfg Mode.MultiSheet col.length col _ 0
    exact ⟨h3, h7, h4, h5, h6⟩

lemma mapFold_error (cfg : Config) (sheetName : String) :
    ∀ (cols : List (List String)) (st : RunState) (j : Nat),
    j < cols.length → cols.getD j [] = [] → (∀ k, k < j → cols.getD k [] ≠ []) →
    List.foldlM (stepCol cfg Mode.Map sheetName) st cols =
      Except.error (Err.mapEmptyCol (st.nCols + j) sheetName) := by
  intro cols
  induction cols with
  | nil => intro st j hj _ _; simp at hj
  | cons c cs ih =>
    intro st j hj he hk
    cases j with
    | zero =>
      have hc : c = [] := by simpa using he
      subst hc
      simp only [List.foldlM_cons, stepCol_map_nil, exceptErrBind]
      norm_num
    | succ j' =>
      have hc : c ≠ [] := by
        have := hk 0 (Nat.succ_pos j')
        simpa using this
      obtain ⟨hd, tl, rfl⟩ : ∃ hd tl, c = hd :: tl := by
        cases c with
        | nil => exact absurd rfl hc
        | cons x xs => exact ⟨x, xs, rfl⟩
      obtain ⟨S1, e1, _⟩ := stepCol_map_ok cfg sheetName st hd tl
      have hrec := ih S1 j' (by simpa using hj) (by simpa using he)
        (fun k hkk => by simpa using hk (k + 1) (by omega))
      have hn : S1.nCols = st.nCols + 1 := (stepCol_counts e1).1
      have harith : st.nCols + 1 + j' = st.nCols + (j' + 1) := by omega
      simp only [List.foldlM_cons, e1, exceptOkBind]
      rw [hrec, hn, harith]

lemma processSheet_map_error {cfg : Config} {st : RunState} {s : Sheet} {j : Nat}
    (hj : j < s.cols.length) (he : s.cols.getD j [] = [])
    (hk : ∀ k, k < j → s.cols.getD k [] ≠ []) :
    processSheet cfg Mode.Map st s = Except.error (Err.mapEmptyCol (st.nCols + j) s.name) := by
  unfold processSheet
  exact mapFold_error cfg s.name s.cols _ j hj he hk

lemma sheetLoop_first_error {cfg : Config} {mode : Mode} {st : RunState} {s : Sheet}
    {rest : List Sheet} {e : Err} (h0 : cfg.useSheet = "")
    (hp : processSheet cfg mode st s = Except.error e) :
    sheetLoop cfg mode st (s :: rest) = Except.error e := by
  rw [sheetLoop, if_neg (by simp [h0]), hp]

lemma runMain_loop_error {cfg : Config} {sheets : List Sheet} {e : Err}
    (h : sheetLoop cfg (resolveMode cfg) initState sheets = Except.error e) :
    runMain cfg sheets = { diag := [], err := some e, primary := [], final := none } := by
  unfold runMain
  dsimp only
  rw [h]

lemma stepCol_ok_of_ne_map (cfg : Config) {mode : Mode} (hm : mode ≠ Mode.Map)
    (sheetName : String) (st : RunState) (col : List String) :
    ∃ st', stepCol cfg mode sheetName st col = Except.ok st' := by
  cases mode with
  | Map => exact absurd rfl hm
  | Matrix => exact ⟨_, stepCol_matrix_eq cfg sheetName st col⟩
  | Stats => exact ⟨_, stepCol_stats_eq cfg sheetName st col⟩
  | MultiSheet => exact ⟨_, stepCol_multi_eq cfg sheetName st col⟩

lemma fold_ok_of_ne_map (cfg : Config) {mode : Mode} (hm : mode ≠ Mode.Map)
    (sheetName : String) :
    ∀ (cols : List (List String)) (st : RunState),
    ∃ st', List.foldlM (stepCol cfg mode sheetName) st cols = Except.ok st' := by
  intro cols
  induction cols with
  | nil => intro st; exact ⟨st, rfl⟩
  | cons c cs ih =>
    intro st
    obtain ⟨st1, h1⟩ := stepCol_ok_of_ne_map cfg hm sheetName st c
    obtain ⟨st2, h2⟩ := ih st1
    exact ⟨st2, by simp only [List.foldlM_cons, h1, exceptOkBind, h2]⟩

lemma sheetLoop_ok_of_ne_map (cfg : Config) {mode : Mode} (hm : mode ≠ Mode.Map) :
    ∀ (sheets : List Sheet) (st : RunState),
    ∃ st', sheetLoop cfg mode st sheets = Except.ok st' := by
  intro sheets
  induction sheets with
  | nil => intro st; exact ⟨st, rfl⟩
  | cons s rest ih =>
    intro st
    rw [sheetLoop]
    split
    · exact ih st
    · obtain ⟨st1, h1⟩ := fold_ok_of_ne_map cfg hm s.name s.cols _
      rw [processSheet, h1]
      dsimp only
      split
      · exact ⟨st1, rfl⟩
      · exact ih st1

lemma sheetLoop_skip_all (cfg : Config) (mode : Mode) :
    ∀ (sheets : List Sheet) (st : RunState),
    (∀ s ∈ sheets, s.name ≠ cfg.useSheet) → cfg.useSheet ≠ "" →
    sheetLoop cfg mode st sheets = Except.ok st := by
  intro sheets
  induction sheets with
  | nil => intro st _ _; rfl
  | cons s rest ih =>
    intro st hall hne
    rw [sheetLoop, if_pos ⟨hne, hall s (by simp)⟩]
    exact ih st (fun x hx => hall x (by simp [hx])) hne

lemma fold_counts (cfg : Config) (mode : Mode) (sheetName : String) :
    ∀ (cols : List (List String)) (st st' : RunState),
    List.foldlM (stepCol cfg mode sheetName) st cols = Except.ok st' →
    st'.nCols = st.nCols + cols.length ∧
    st'.nRows = st.nRows + (cols.map List.length).sum ∧
    st'.nSheets = st.nSheets ∧ st'.sheetFound = st.sheetFound ∧
    st'.rowSize = (if cols.isEmpty then st.rowSize else (cols.getLastD []).length) := by
  intro cols
  induction cols with
  | nil =>
    intro st st' h
    simp only [List.foldlM_nil] at h
    have hst : st = st' := by
      have h' : (Except.ok st : Except Err RunState) = Except.ok st' := h
      injection h'
    subst hst
    simp
  | cons c cs ih =>
    intro st st' h
    simp only [List.foldlM_cons] at h
    cases hc : stepCol cfg mode sheetName st c with
    | error e =>
      rw [hc, exceptErrBind] at h
      exact absurd h (by simp)
    | ok st1 =>
      rw [hc, exceptOkBind] at h
      obtain ⟨n1, r1, rs1, s1, f1⟩ := stepCol_counts hc
      obtain ⟨n2, r2, s2, f2, rs2⟩ := ih st1 st' h
      refine ⟨?_, ?_, ?_, ?_, ?_⟩
      · rw [n2, n1]
        simp only [List.length_cons]
        omega
      · rw [r2, r1]
        simp only [List.map_cons, List.sum_cons]
        omega
      · rw [s2, s1]
      · rw [f2, f1]
      · rw [rs2]
        cases cs with
        | nil =>
          simpa [List.getLastD_cons] using rs1
        | cons d ds =>
          simp [List.getLastD_cons]

lemma runMain_ok {cfg : Config} {sheets : List Sheet} {st : RunState}
    (h : sheetLoop cfg (resolveMode cfg) initState sheets = Except.ok st) :
    runMain cfg sheets =
      if st.sheetFound = true then
        { diag := [{ nSheets := st.nSheets, nCols := st.nCols,
                     nElements := st.nRows, rowSize := st.rowSize }], err := none,
          primary := st.outLines ++ serialize cfg (resolveMode cfg) st sheets,
          final := some st }
      else
        { diag := [{ nSheets := st.nSheets, nCols := st.nCols,
                     nElements := st.nRows, rowSize := st.rowSize }],
          err := some (Err.sheetNotFound cfg.useSheet), primary := [], final := some st } := by
  unfold runMain
  dsimp only
  rw [h]

lemma sheetLoop_single {cfg : Config} {mode : Mode} {st st1 : RunState} {s : Sheet}
    {rest : List Sheet} (h0 : cfg.useSheet = "" ∨ cfg.useSheet = s.name)
    (hall : cfg.allSheets = false)
    (hp : processSheet cfg mode st s = Except.ok st1) :
    sheetLoop cfg mode st (s :: rest) = Except.ok st1 := by
  rw [sheetLoop, if_neg (by rcases h0 with h | h <;> simp [h]), hp]
  simp [hall]

lemma processSheet_fields {cfg : Config} {mode : Mode} {st st1 : RunState} {s : Sheet}
    (hp : processSheet cfg mode st s = Except.ok st1) :
    st1.nSheets = st.nSheets + 1 ∧ st1.sheetFound = true ∧
    st1.nCols = st.nCols + s.cols.length ∧
    st1.nRows = st.nRows + (s.cols.map List.length).sum ∧
    st1.rowSize = (if s.cols.isEmpty then st.rowSize else (s.cols.getLastD []).length) := by
  unfold processSheet at hp
  dsimp only at hp
  obtain ⟨hn, hr, hs2, hf, hrs⟩ := fold_counts cfg mode s.name s.cols _ st1 hp
  exact ⟨by simpa using hs2, by simpa using hf, by simpa using hn,
    by simpa using hr, by simpa using hrs⟩

lemma stepCol_matrix_ok (cfg : Config) (sheetName : String) (st : RunState)
    (col : List String) :
    ∃ st', stepCol cfg Mode.Matrix sheetName st col = Except.ok st' ∧
      st'.bookMat = (fun s => if s = sheetName then st.bookMat sheetName ++ [col]
                     else st.bookMat s) ∧
      st'.outLines = st.outLines ∧ st'.bookTab = st.bookTab := by
  refine ⟨_, stepCol_matrix_eq cfg sheetName st col, ?_, ?_, ?_⟩
  · exact (rowLoopAux_fields cfg Mode.Matrix col.length col _ 0).2.1
  · exact rowLoopAux_outLines cfg Mode.Matrix col.length (by simp) col _ 0
  · exact (rowLoopAux_fields cfg Mode.Matrix col.length col _ 0).1

lemma matrix_fold (cfg : Config) (sheetName : String) :
    ∀ (cols : List (List String)) (st : RunState),
    ∃ st', List.foldlM (stepCol cfg Mode.Matrix sheetName) st cols = Except.ok st' ∧
      st'.bookMat = (fun s => if s = sheetName then st.bookMat sheetName ++ cols
                     else st.bookMat s) ∧
      st'.outLines = st.outLines ∧ st'.bookTab = st.bookTab := by
  intro cols
  induction cols with
  | nil =>
    intro st
    refine ⟨st, rfl, ?_, rfl, rfl⟩
    funext s
    by_cases h : s = sheetName <;> simp [h]
  | cons c cs ih =>
    intro st
    obtain ⟨st1, e1, hm1, ho1, ht1⟩ := stepCol_matrix_ok cfg sheetName st c
    obtain ⟨st2, e2, hm2, ho2, ht2⟩ := ih st1
    refine ⟨st2, by simp only [List.foldlM_cons, e1, exceptOkBind, e2], ?_, ?_, ?_⟩
    · rw [hm2, hm1]
      funext s
      by_cases h : s = sheetName <;> simp [h]
    · rw [ho2, ho1]
    · rw [ht2, ht1]

lemma processSheet_matrix {cfg : Config} {s : Sheet} :
    ∃ st1, processSheet cfg Mode.Matrix initState s = Except.ok st1 ∧
      st1.bookMat s.name = s.cols ∧ st1.outLines = [] ∧ st1.sheetFound = true := by
  unfold processSheet
  dsimp only
  obtain ⟨st1, hfold, hm, ho, _⟩ := matrix_fold cfg s.name s.cols _
  refine ⟨st1, hfold, ?_, ?_, ?_⟩
  · rw [hm]
    simp
  · rw [ho]
    simp [initState]
  · have := (fold_counts cfg Mode.Matrix s.name s.cols _ st1 hfold).2.2.2.1
    simpa using this

lemma maxFold_ge_init :
    ∀ (l : List (List String)) (a : Nat),
    a ≤ l.foldl (fun n col => if col.length > n then col.length else n) a := by
  intro l
  induction l with
  | nil => intro a; exact Nat.le_refl a
  | cons c cs ih =>
    intro a
    simp only [List.foldl_cons]
    refine Nat.le_trans ?_ (ih _)
    split
    · omega
    · exact Nat.le_refl a

lemma maxFold_ge_mem :
    ∀ (l : List (List String)) (a : Nat) (col : List String), col ∈ l →
    col.length ≤ l.foldl (fun n col => if col.length > n then col.length else n) a := by
  intro l
  induction l with
  | nil => intro a col h; simp at h
  | cons c cs ih =>
    intro a col h
    simp only [List.foldl_cons]
    rcases List.mem_cons.mp h with rfl | h
    · refine Nat.le_trans ?_ (maxFold_ge_init cs _)
      split
      · exact Nat.le_refl _
      · omega
    · exact ih _ col h

lemma maxFold_cases :
    ∀ (l : List (List String)) (a : Nat),
    l.foldl (fun n col => if col.length > n then col.length else n) a = a ∨
    ∃ col ∈ l, l.foldl (fun n col => if col.length > n then col.length else n) a
      = col.length := by
  intro l
  induction l with
  | nil => intro a; exact Or.inl rfl
  | cons c cs ih =>
    intro a
    simp only [List.foldl_cons]
    by_cases h : c.length > a
    · rw [if_pos h]
      rcases ih c.length with h1 | ⟨col, hmem, hcol⟩
      · exact Or.inr ⟨c, List.mem_cons_self c cs, h1⟩
      · exact Or.inr ⟨col, List.mem_cons_of_mem c hmem, hcol⟩
    · rw [if_neg h]
      rcases ih a with h1 | ⟨col, hmem, hcol⟩
      · exact Or.inl h1
      · exact Or.inr ⟨col, List.mem_cons_of_mem c hmem, hcol⟩

lemma maxColLen_ge (records : List (List String)) :
    ∀ col ∈ records, col.length ≤ maxColLen records := by
  intro col h
  exact maxFold_ge_mem records 0 col h

lemma maxColLen_attained (records : List (List String)) :
    maxColLen records = 0 ∨ ∃ col ∈ records, maxColLen records = col.length :=
  maxFold_cases records 0

lemma setCell_length (g : List (List String)) (ri ci : Nat) (v : String) :
    (setCell g ri ci v).length = g.length := by
  unfold setCell
  cases h : g[ri]? <;> simp

lemma setCell_get_ne (g : List (List String)) (ri ci : Nat) (v : String) (r : Nat)
    (h : r ≠ ri) : (setCell g ri ci v)[r]? = g[r]? := by
  unfold setCell
  cases hh : g[ri]? with
  | none => rfl
  | some row => exact List.getElem?_set_ne (Ne.symm h)

lemma setCell_get_self (g : List (List String)) (ri ci : Nat) (v : String) :
    (setCell g ri ci v)[ri]? = (g[ri]?).map (fun row => row.set ci v) := by
  unfold setCell
  cases hh : g[ri]? with
  | none => rw [hh]; rfl
  | some row =>
    have hlt : ri < g.length := by
      by_contra hge
      rw [List.getElem?_eq_none (by omega)] at hh
      exact Option.noConfusion hh
    show (g.set ri (row.set ci v))[ri]? = Option.map (fun row => row.set ci v) (some row)
    rw [List.getElem?_set_self hlt]
    rfl

lemma setCell_wf {g : List (List String)} {C : Nat} (hwf : gridWF g C)
    (ri ci : Nat) (v : String) : gridWF (setCell g ri ci v) C := by
  unfold setCell
  cases hh : g[ri]? with
  | none => exact hwf
  | some row =>
    intro r hr
    rcases List.mem_or_eq_of_mem_set hr with hmem | rfl
    · exact hwf r hmem
    · rw [List.length_set]
      exact hwf row (List.getElem?_mem hh)

lemma fillColAux_length (b : Bool) (ci : Nat) :
    ∀ (cells : List String) (g : List (List String)) (ri : Nat),
    (fillColAux b ci g cells ri).length = g.length := by
  intro cells
  induction cells with
  | nil => intro g ri; rfl
  | cons cell rest ih =>
    intro g ri
    simp only [fillColAux]
    rw [ih]
    split
    · rfl
    · exact setCell_length g ri ci cell

lemma fillColAux_wf (b : Bool) (ci : Nat) {C : Nat} :
    ∀ (cells : List String) (g : List (List String)) (ri : Nat),
    gridWF g C → gridWF (fillColAux b ci g cells ri) C := by
  intro cells
  induction cells with
  | nil => intro g ri h; exact h
  | cons cell rest ih =>
    intro g ri h
    simp only [fillColAux]
    refine ih _ _ ?_
    split
    · exact h
    · exact setCell_wf h ri ci cell

lemma fillColAux_get_out (b : Bool) (ci : Nat) :
    ∀ (cells : List String) (g : List (List String)) (ri r : Nat),
    (r < ri ∨ ri + cells.length ≤ r) →
    (fillColAux b ci g cells ri)[r]? = g[r]? := by
  intro cells
  induction cells with
  | nil => intro g ri r _; rfl
  | cons cell rest ih =>
    intro g ri r hr
    simp only [List.length_cons] at hr
    simp only [fillColAux]
    rw [ih _ (ri + 1) r (by omega)]
    split
    · rfl
    · exact setCell_get_ne g ri ci cell r (by omega)

lemma fillColAux_get_in (b : Bool) (ci : Nat) :
    ∀ (cells : List String) (g : List (List String)) (ri k : Nat), k < cells.length →
    (fillColAux b ci g cells ri)[ri + k]? =
      if b = true ∧ ri + k = 0 then g[ri + k]?
      else (g[ri + k]?).map (fun row => row.set ci (cells.getD k "")) := by
  intro cells
  induction cells with
  | nil => intro g ri k hk; simp at hk
  | cons cell rest ih =>
    intro g ri k hk
    simp only [fillColAux]
    cases k with
    | zero =>
      rw [fillColAux_get_out b ci rest _ (ri + 1) (ri + 0) (by omega)]
      by_cases hcond : (b && ri == 0) = true
      · rw [if_pos hcond]
        have hb : b = true ∧ ri = 0 := by simpa using hcond
        rw [if_pos ⟨hb.1, by omega⟩]
      · rw [if_neg hcond]
        simp only [Bool.and_eq_true, beq_iff_eq] at hcond
        have hb2 : ¬(b = true ∧ ri + 0 = 0) := by
          rintro ⟨hbt, hri⟩
          exact hcond ⟨hbt, by omega⟩
        rw [if_neg hb2]
        simpa using setCell_get_self g ri ci cell
    | succ k' =>
      simp only [List.length_cons] at hk
      have harr : ri + (k' + 1) = ri + 1 + k' := by omega
      rw [harr, ih _ (ri + 1) k' (by omega)]
      have hg1 : (if b && ri == 0 then g
          else setCell g ri ci cell)[ri + 1 + k']? = g[ri + 1 + k']? := by
        split
        · rfl
        · exact setCell_get_ne g ri ci cell _ (by omega)
      rw [hg1]
      rw [if_neg (by rintro ⟨-, h2⟩; omega)]
      rw [if_neg (by rintro ⟨-, h2⟩; omega)]
      simp

lemma fillColAux_get_zero (b : Bool) (ci : Nat) (cells : List String)
    (g : List (List String)) (r : Nat) (hr : r < cells.length) :
    (fillColAux b ci g cells 0)[r]? =
      if b = true ∧ r = 0 then g[r]?
      else (g[r]?).map (fun row => row.set ci (cells.getD r "")) := by
  have h := fillColAux_get_in b ci cells g 0 r hr
  simpa using h

lemma fillColAux_get_past (b : Bool) (ci : Nat) (cells : List String)
    (g : List (List String)) (r : Nat) (hr : cells.length ≤ r) :
    (fillColAux b ci g cells 0)[r]? = g[r]? :=
  fillColAux_get_out b ci cells g 0 r (by omega)

lemma fillColAux_cell_ne (b : Bool) (ci : Nat) (cells : List String)
    (g : List (List String)) (r c : Nat) (h : c ≠ ci) :
    gridCell (fillColAux b ci g cells 0) r c = gridCell g r c := by
  unfold gridCell
  simp only [List.getD_eq_getElem?_getD]
  by_cases hr : r < cells.length
  · rw [fillColAux_get_zero b ci cells g r hr]
    split
    · rfl
    · cases hg : g[r]? with
      | none => rfl
      | some row =>
        simp only [Option.map_some', Option.getD_some]
        rw [List.getElem?_set_ne (Ne.symm h)]
  · rw [fillColAux_get_past b ci cells g r (by omega)]

lemma fillCols_length (b : Bool) :
    ∀ (cols : List (List String)) (g : List (List String)) (ci : Nat),
    (fillCols b g cols ci).length = g.length := by
  intro cols
  induction cols with
  | nil => intro g ci; rfl
  | cons col rest ih =>
    intro g ci
    simp only [fillCols]
    rw [ih, fillColAux_length]

lemma fillCols_wf (b : Bool) {C : Nat} :
    ∀ (cols : List (List String)) (g : List (List String)) (ci : Nat),
    gridWF g C → gridWF (fillCols b g cols ci) C := by
  intro cols
  induction cols with
  | nil => intro g ci h; exact h
  | cons col rest ih =>
    intro g ci h
    simp only [fillCols]
    exact ih _ _ (fillColAux_wf b ci col g 0 h)

lemma fillCols_cell_lt (b : Bool) :
    ∀ (cols : List (List String)) (g : List (List String)) (ci r c : Nat), c < ci →
    gridCell (fillCols b g cols ci) r c = gridCell g r c := by
  intro cols
  induction cols with
  | nil => intro g ci r c _; rfl
  | cons col rest ih =>
    intro g ci r c h
    simp only [fillCols]
    rw [ih _ (ci + 1) r c (by omega)]
    exact fillColAux_cell_ne b ci col g r c (by omega)

lemma fillCols_cell (b : Bool) {C : Nat} :
    ∀ (cols : List (List String)) (g : List (List String)) (ci : Nat),
    gridWF g C →
    (∀ col ∈ cols, col.length ≤ g.length) →
    ∀ r c : Nat, c < C → ci ≤ c → c < ci + cols.length →
    gridCell (fillCols b g cols ci) r c =
      if r < (cols.getD (c - ci) []).length ∧ ¬(b = true ∧ r = 0) then
        (cols.getD (c - ci) []).getD r ""
      else gridCell g r c := by
  intro cols
  induction cols with
  | nil =>
    intro g ci _ _ r c _ h1 h2
    simp only [List.length_nil] at h2
    omega
  | cons col rest ih =>
    intro g ci hwf hlen r c hcC hcic hup
    simp only [fillCols]
    by_cases hc : c = ci
    · subst hc
      rw [fillCols_cell_lt b rest _ (c + 1) r c (by omega)]
      simp only [Nat.sub_self, List.getD_cons_zero]
      unfold gridCell
      simp only [List.getD_eq_getElem?_getD]
      by_cases hr : r < col.length
      · rw [fillColAux_get_zero b c col g r hr]
        by_cases hb : b = true ∧ r = 0
        · rw [if_pos hb, if_neg (by tauto)]
        · rw [if_neg hb, if_pos ⟨hr, hb⟩]
          have hrg : r < g.length :=
            Nat.lt_of_lt_of_le hr (hlen col (List.mem_cons_self col rest))
          have hrow : g[r]? = some (g.get ⟨r, hrg⟩) := by
            rw [List.getElem?_eq_getElem hrg]
            rfl
          rw [hrow]
          simp only [Option.map_some', Option.getD_some]
          have hciC : c < (g.get ⟨r, hrg⟩).length := by
            rw [hwf (g.get ⟨r, hrg⟩) (List.getElem?_mem hrow)]
            exact hcC
          rw [List.getElem?_set_self hciC]
          simp [List.getD_eq_getElem?_getD]
      · rw [fillColAux_get_past b c col g r (by omega)]
        rw [if_neg (fun h => hr h.1)]
    · have hsub : c - ci = (c - (ci + 1)) + 1 := by omega
      rw [hsub]
      simp only [List.getD_cons_succ]
      rw [ih (fillColAux b ci g col 0) (ci + 1) (fillColAux_wf b ci col g 0 hwf)
        (fun col' hc' => by
          rw [fillColAux_length]
          exact hlen col' (List.mem_cons_of_mem _ hc'))
        r c hcC (by omega)
        (by simp only [List.length_cons] at hup; omega)]
      rw [fillColAux_cell_ne b ci col g r c (by omega)]

lemma emptyGrid_length (R C : Nat) : (emptyGrid R C).length = R := by
  simp [emptyGrid]

lemma emptyGrid_wf (R C : Nat) : gridWF (emptyGrid R C) C := by
  intro row hrow
  rw [List.eq_of_mem_replicate hrow]
  simp

lemma emptyGrid_cell (R C r c : Nat) : gridCell (emptyGrid R C) r c = "" := by
  unfold gridCell emptyGrid
  simp only [List.getD_eq_getElem?_getD, List.getElem?_replicate]
  split
  · simp only [Option.getD_some, List.getElem?_replicate]
    split <;> rfl
  · rfl

lemma csvGrid_cell (b : Bool) (records : List (List String)) (r c : Nat)
    (hc : c < records.length) :
    gridCell (csvGrid b records) r c =
      if r < (records.getD c []).length ∧ ¬(b = true ∧ r = 0) then
        (records.getD c []).getD r ""
      else "" := by
  unfold csvGrid
  have h := fillCols_cell b records (emptyGrid (maxColLen records) records.length) 0
    (emptyGrid_wf (maxColLen records) records.length)
    (fun col hcol => by rw [emptyGrid_length]; exact maxColLen_ge records col hcol)
    r c hc (Nat.zero_le c) (by omega)
  simpa [emptyGrid_cell] using h

/-- C1: the claim says -striptitles makes the CSV transposition skip cell
index 0 of every column, yielding one fewer row.  Evaluating the embedded
code on a one-column sheet ["H","a"]: with -striptitles -csv the header is
NOT skipped (the emitted grid is [["H"],["a"]]); the skip at main.go line
198 is keyed to -notitles instead, and even then the grid keeps the same
number of rows, with row 0 left as empty strings ([[""],["a"]]) rather
than removed. -/
theorem C1_code_eval :
    Outcome.csvGrids (runMain { cfgBase with asCSV := true, stripColNames := true }
      [{ name := "S", cols := [["H", "a"]] }]) = [[["H"], ["a"]]] ∧
    Outcome.csvGrids (runMain { cfgBase with asCSV := true, noColNames := true }
      [{ name := "S", cols := [["H", "a"]] }]) = [[[""], ["a"]]] :=
  ⟨by decide, by decide⟩

/-- C2 (amended): mode resolution as the code implements it: Stats when
statistics are requested or when none of json/go/csv output is requested,
otherwise Matrix when table-mode, striptitles or csv is set, otherwise
Map.  In particular -notitles never affects the mode, and -stats
overrides every matrix-forcing flag. -/
theorem C2_mode_resolution (cfg : Config) :
    resolveMode cfg =
      if cfg.statsMode || (!cfg.asJson && !cfg.asGo && !cfg.asCSV) then Mode.Stats
      else if cfg.tableMode || cfg.stripColNames || cfg.asCSV then Mode.Matrix
      else Mode.Map := by
  rcases cfg with ⟨a, u, n, sp, t, sm, j, g, c⟩
  cases t <;> cases sp <;> cases c <;> cases sm <;> cases j <;> cases g <;> rfl

/-- C2 counterexample: with the matrix-forcing flag -table and -stats both
set (and -json requested so the default-to-Stats rule is not the cause),
the resolved mode is Stats, not Matrix as the claim requires. -/
theorem C2_counterexample :
    resolveMode { cfgBase with tableMode := true, statsMode := true, asJson := true }
      = Mode.Stats ∧
    resolveMode { cfgBase with tableMode := true, statsMode := true, asJson := true }
      ≠ Mode.Matrix :=
  ⟨rfl, by decide⟩

/-- C3 counterexample: with -csv -sheet B on a workbook with sheets A then
B, the processed sheet is B — its Matrix Table is [["y"]], which would
transpose to [["y"]] — yet the emitted CSV grid is the empty grid built
from the workbook's first sheet A (main.go line 179), whose bookMat entry
was never filled. -/
theorem C3_counterexample :
    Outcome.matAt (runMain { cfgBase with asCSV := true, useSheet := "B" }
      [Sheet.mk "A" [["x"]], Sheet.mk "B" [["y"]]]) "B" = [["y"]] ∧
    Outcome.csvGrids (runMain { cfgBase with asCSV := true, useSheet := "B" }
      [Sheet.mk "A" [["x"]], Sheet.mk "B" [["y"]]]) = [([] : List (List String))] ∧
    csvGrid false [["y"]] = [["y"]] ∧
    ([] : List (List String)) ≠ [["y"]] :=
  ⟨by decide, by decide, by decide, by decide⟩

/-- C4: the claim (and the -notitles flag's own help text at main.go line
30) says -notitles forces Matrix mode; evaluating the embedded code with
-notitles -json, the mode stays Map (line 53 omits the flag) and a Mapping
Table entry is built and emitted, not a Matrix Table. -/
theorem C4_code_eval :
    resolveMode { cfgBase with noColNames := true, asJson := true } = Mode.Map ∧
    Outcome.tabAt (runMain { cfgBase with noColNames := true, asJson := true }
      [{ name := "S", cols := [["H", "a"]] }]) "S" "H" = some ["a"] :=
  ⟨by decide, by decide⟩

/-- C5: processing one column in Mapping mode records exactly the entry
header to the cells after index 0 in their original order: a one-cell
column maps its header to the empty sequence, a longer column maps the
cell at index 0 to the remaining cells verbatim; entries for other keys
and other sheets are untouched, so no cell is added, dropped or
reordered. -/
theorem C5_mapping_column (cfg : Config) (sheetName : String) (st : RunState)
    (col : List String) (h : col ≠ []) :
    ∃ st', stepCol cfg Mode.Map sheetName st col = Except.ok st' ∧
      st'.bookTab sheetName (col.headD "") = some col.tail ∧
      (col.length = 1 → st'.bookTab sheetName (col.headD "") = some []) ∧
      (2 ≤ col.length → st'.bookTab sheetName (col.headD "") = some col.tail) ∧
      (∀ k, k ≠ col.headD "" → st'.bookTab sheetName k = st.bookTab sheetName k) ∧
      (∀ s, s ≠ sheetName → st'.bookTab s = st.bookTab s) := by
  cases col with
  | nil => exact absurd rfl h
  | cons hd tl =>
    obtain ⟨st', he, hb⟩ := stepCol_map_ok cfg sheetName st hd tl
    refine ⟨st', he, ?_, ?_, ?_, ?_, ?_⟩
    · simp only [List.headD_cons, List.tail_cons]
      rw [hb]
      exact updTab_self st.bookTab sheetName hd tl
    · intro hl
      have htl : tl = [] := by simpa using hl
      subst htl
      simp only [List.headD_cons]
      rw [hb]
      exact updTab_self st.bookTab sheetName hd []
    · intro _
      simp only [List.headD_cons, List.tail_cons]
      rw [hb]
      exact updTab_self st.bookTab sheetName hd tl
    · intro k hk
      simp only [List.headD_cons] at hk
      rw [hb]
      exact updTab_other_key st.bookTab sheetName hd tl k hk
    · intro s hs
      rw [hb]
      exact updTab_other_sheet st.bookTab sheetName hd tl s hs

/-- C5 witness: the theorem applied to the column with header Name and
data cells Alice then Bob. -/
theorem C5_mapping_column_witness :
    ∃ st', stepCol cfgBase Mode.Map "S" initState ["Name", "Alice", "Bob"] = Except.ok st' ∧
      st'.bookTab "S" "Name" = some ["Alice", "Bob"] := by
  obtain ⟨st', he, hmain, _, _, _, _⟩ :=
    C5_mapping_column cfgBase "S" initState ["Name", "Alice", "Bob"] (by simp)
  exact ⟨st', he, by simpa using hmain⟩

/-- C10: in Mapping mode, two columns of one sheet with identical header
cells leave in the table only the later column's value sequence under
that header: the fold over both columns succeeds without any error and
the entry holds the second column's tail, so the first column's data
cells are silently replaced whenever the tails differ. -/
theorem C10_duplicate_header (cfg : Config) (sheetName : String) (st : RunState)
    (c1 c2 : List String) (h1 : c1 ≠ []) (h2 : c2 ≠ []) (hh : c1.headD "" = c2.headD "") :
    ∃ st', List.foldlM (stepCol cfg Mode.Map sheetName) st [c1, c2] = Except.ok st' ∧
      st'.bookTab sheetName (c1.headD "") = some c2.tail ∧
      (c2.tail ≠ c1.tail → ¬ st'.bookTab sheetName (c1.headD "") = some c1.tail) := by
  cases c1 with
  | nil => exact absurd rfl h1
  | cons a t1 =>
    cases c2 with
    | nil => exact absurd rfl h2
    | cons b t2 =>
      simp only [List.headD_cons] at hh
      subst hh
      obtain ⟨S1, e1, b1⟩ := stepCol_map_ok cfg sheetName st a t1
      obtain ⟨S2, e2, b2⟩ := stepCol_map_ok cfg sheetName S1 a t2
      refine ⟨S2, ?_, ?_, ?_⟩
      · simp only [List.foldlM_cons, List.foldlM_nil, e1, exceptOkBind, e2]
        rfl
      · simp only [List.headD_cons, List.tail_cons]
        rw [b2]
        exact updTab_self S1.bookTab sheetName a t2
      · intro hne
        simp only [List.headD_cons, List.tail_cons] at hne ⊢
        rw [b2, updTab_self]
        simp [hne]

/-- C10 witness: the theorem applied to two columns both headed H with
data a respectively b: the surviving entry is H to [b]. -/
theorem C10_duplicate_header_witness :
    ∃ st', List.foldlM (stepCol cfgBase Mode.Map "S") initState [["H", "a"], ["H", "b"]]
        = Except.ok st' ∧
      st'.bookTab "S" "H" = some ["b"] ∧ ¬ st'.bookTab "S" "H" = some ["a"] := by
  obtain ⟨st', he, hmain, hne⟩ :=
    C10_duplicate_header cfgBase "S" initState ["H", "a"] ["H", "b"]
      (by simp) (by simp) (by simp)
  exact ⟨st', he, by simpa using hmain, by simpa using hne (by simp)⟩

/-- C6: (first part) in Mapping mode, the first zero-cell column of the
processed sheet aborts the run fatally with an error naming that column's
index and the sheet name, before anything reaches the primary output —
the observable outcome is exactly the error, with no info line and no
primary bytes; (second part) in any non-Mapping mode a zero-cell column
never raises this error. -/
theorem C6_empty_column_map_only :
    (∀ (cfg : Config) (s : Sheet) (rest : List Sheet) (j : Nat),
      resolveMode cfg = Mode.Map → cfg.useSheet = "" →
      j < s.cols.length → s.cols.getD j [] = [] →
      (∀ k, k < j → s.cols.getD k [] ≠ []) →
      runMain cfg (s :: rest) =
        { diag := [], err := some (Err.mapEmptyCol j s.name), primary := [], final := none }) ∧
    (∀ (cfg : Config) (sheets : List Sheet) (i : Nat) (n : String),
      resolveMode cfg ≠ Mode.Map →
      (runMain cfg sheets).err ≠ some (Err.mapEmptyCol i n)) := by
  constructor
  · intro cfg s rest j hmode h0 hj he hk
    have hp : processSheet cfg Mode.Map initState s =
        Except.error (Err.mapEmptyCol j s.name) := by
      have := @processSheet_map_error cfg initState s j hj he hk
      simpa [initState] using this
    have hloop : sheetLoop cfg (resolveMode cfg) initState (s :: rest) =
        Except.error (Err.mapEmptyCol j s.name) := by
      rw [hmode]
      exact sheetLoop_first_error h0 hp
    exact runMain_loop_error hloop
  · intro cfg sheets i n hm
    obtain ⟨st', h⟩ := sheetLoop_ok_of_ne_map cfg hm sheets initState
    unfold runMain
    dsimp only
    rw [h]
    dsimp only
    split
    · simp
    · simp

/-- C6 witness: on a sheet with columns [H], [], [K] in Mapping mode
(-json) the run aborts with the error naming column 1 and sheet S and the
primary output stays empty, while the same workbook in Matrix mode
(-json -table) does not raise that error. -/
theorem C6_empty_column_map_only_witness :
    (runMain { cfgBase with asJson := true } [Sheet.mk "S" [["H"], [], ["K"]]]).err
      = some (Err.mapEmptyCol 1 "S") ∧
    (runMain { cfgBase with asJson := true } [Sheet.mk "S" [["H"], [], ["K"]]]).primary = [] ∧
    (runMain { cfgBase with asJson := true, tableMode := true }
      [Sheet.mk "S" [["H"], [], ["K"]]]).err ≠ some (Err.mapEmptyCol 1 "S") := by
  have h1 := C6_empty_column_map_only.1 { cfgBase with asJson := true }
    (Sheet.mk "S" [["H"], [], ["K"]]) [] 1 (by decide) rfl (by decide) rfl
    (by
      intro k hk
      have hk0 : k = 0 := by omega
      subst hk0
      simp)
  have h2 := C6_empty_column_map_only.2 { cfgBase with asJson := true, tableMode := true }
    [Sheet.mk "S" [["H"], [], ["K"]]] 1 "S" (by decide)
  exact ⟨by rw [h1], by rw [h1], h2⟩

/-- C8: when an explicit sheet name is requested and no sheet in the
workbook bears it, the run ends in the sheet-not-found fatal error naming
the requested sheet, with zero content delivered to the primary output;
the info line written after the loop shows zero sheets and columns
processed. -/
theorem C8_sheet_not_found (cfg : Config) (sheets : List Sheet)
    (h1 : cfg.useSheet ≠ "") (h2 : ∀ s ∈ sheets, s.name ≠ cfg.useSheet) :
    (runMain cfg sheets).err = some (Err.sheetNotFound cfg.useSheet) ∧
    (runMain cfg sheets).primary = [] ∧
    (runMain cfg sheets).diag
      = [{ nSheets := 0, nCols := 0, nElements := 0, rowSize := 0 }] := by
  have h := sheetLoop_skip_all cfg (resolveMode cfg) sheets initState h2 h1
  unfold runMain
  dsimp only
  rw [h]
  exact ⟨rfl, rfl, rfl⟩

/-- C8 witness: the theorem applied to requesting sheet Missing on a
workbook containing only Sheet1. -/
theorem C8_sheet_not_found_witness :
    (runMain { cfgBase with useSheet := "Missing" } [Sheet.mk "Sheet1" [["H"]]]).err
      = some (Err.sheetNotFound "Missing") ∧
    (runMain { cfgBase with useSheet := "Missing" } [Sheet.mk "Sheet1" [["H"]]]).primary
      = [] := by
  have h := C8_sheet_not_found { cfgBase with useSheet := "Missing" }
    [Sheet.mk "Sheet1" [["H"]]] (by decide)
    (by
      intro s hs
      simp only [List.mem_singleton] at hs
      subst hs
      decide)
  exact ⟨h.1, h.2.1⟩

/-- C9: every successful run writes exactly one info line to the
diagnostic stream (any mode), and in the default single-sheet scope that
line reports the number of sheets processed (1), the number of columns,
the total cell count over all columns, and a row size equal to the
cell-count of the last processed column (0 when the sheet has no
columns), not a true row count. -/
theorem C9_diagnostic :
    (∀ (cfg : Config) (sheets : List Sheet),
      (runMain cfg sheets).err = none → (runMain cfg sheets).diag.length = 1) ∧
    (∀ (cfg : Config) (s : Sheet) (rest : List Sheet),
      cfg.useSheet = "" → cfg.allSheets = false →
      (runMain cfg (s :: rest)).err = none →
      (runMain cfg (s :: rest)).diag =
        [{ nSheets := 1, nCols := s.cols.length,
           nElements := (s.cols.map List.length).sum,
           rowSize := if s.cols.isEmpty then 0 else (s.cols.getLastD []).length }]) := by
  constructor
  · intro cfg sheets herr
    cases hloop : sheetLoop cfg (resolveMode cfg) initState sheets with
    | error e =>
      rw [runMain_loop_error hloop] at herr
      simp at herr
    | ok st =>
      rw [runMain_ok hloop] at herr ⊢
      by_cases hf : st.sheetFound = true
      · rw [if_pos hf]
        rfl
      · rw [if_neg hf] at herr
        simp at herr
  · intro cfg s rest h0 hall herr
    cases hp : processSheet cfg (resolveMode cfg) initState s with
    | error e =>
      have hloop := @sheetLoop_first_error cfg (resolveMode cfg) initState s rest e h0 hp
      rw [runMain_loop_error hloop] at herr
      simp at herr
    | ok st1 =>
      have hloop := @sheetLoop_single cfg (resolveMode cfg) initState st1 s rest (Or.inl h0) hall hp
      obtain ⟨hns, hf, hnc, hnr, hrs⟩ := processSheet_fields hp
      rw [runMain_ok hloop, if_pos hf]
      dsimp only
      rw [hns, hnc, hnr, hrs]
      simp [initState]

/-- C9 witness: the theorem applied to a sheet with ragged columns of
lengths 2, 2 and 1: the info line reports 1 sheet, 3 columns, 5 elements
and row size 1 (the last column's length). -/
theorem C9_diagnostic_witness :
    (runMain cfgBase [Sheet.mk "S" [["H", "a"], ["", "b"], ["K"]]]).diag =
      [{ nSheets := 1, nCols := 3, nElements := 5, rowSize := 1 }] := by
  have h := C9_diagnostic.2 cfgBase (Sheet.mk "S" [["H", "a"], ["", "b"], ["K"]]) []
    rfl rfl (by decide)
  simpa using h

/-- C3 (amended): for CSV output in the default single-sheet scope
(statistics off, no json/go output, no -all), when the selected sheet is
the workbook's first sheet — the empty selection or an explicit request
for its name — the emitted grid is the transposition of that first
sheet's Matrix Table.  The counterexample shows the code always uses the
workbook's first sheet (sheets[0]), so selecting any later sheet emits a
grid built from an empty table instead of the processed sheet's table. -/
theorem C3_first_sheet_csv (cfg : Config) (s : Sheet) (rest : List Sheet)
    (hcsv : cfg.asCSV = true) (hstats : cfg.statsMode = false)
    (hjson : cfg.asJson = false) (hgo : cfg.asGo = false)
    (hall : cfg.allSheets = false)
    (hsel : cfg.useSheet = "" ∨ cfg.useSheet = s.name) :
    Outcome.csvGrids (runMain cfg (s :: rest)) = [csvGrid cfg.noColNames s.cols] := by
  have hmode : resolveMode cfg = Mode.Matrix := by
    unfold resolveMode
    simp [hcsv, hstats]
  obtain ⟨st1, hp, hmat, hout, hfound⟩ := @processSheet_matrix cfg s
  have hloop := @sheetLoop_single cfg (resolveMode cfg) initState st1 s rest hsel hall
    (by rw [hmode]; exact hp)
  rw [runMain_ok hloop, if_pos hfound]
  unfold Outcome.csvGrids
  dsimp only
  rw [hout]
  unfold serialize
  rw [hjson, hgo, hcsv]
  simp only [Bool.false_eq_true, if_false, if_true, List.headD_cons, List.nil_append]
  rw [hmat]
  simp [List.filterMap_cons]

/-- C3 witness: the theorem applied to a one-sheet workbook with a single
two-cell column under plain -csv. -/
theorem C3_first_sheet_csv_witness :
    Outcome.csvGrids (runMain { cfgBase with asCSV := true } [Sheet.mk "A" [["x", "y"]]])
      = [csvGrid false [["x", "y"]]] := by
  have h := C3_first_sheet_csv { cfgBase with asCSV := true } (Sheet.mk "A" [["x", "y"]]) []
    rfl rfl rfl rfl rfl (Or.inl rfl)
  simpa using h

/-- C7: without header-stripping the CSV transposition of C columns
yields a grid with exactly R rows, R being the maximum cell-count over
the columns (an upper bound that is attained unless zero); every row in
range has exactly C fields; for every column index c and every r below
that column's own length, cell (r,c) equals the column's cell at index r;
every cell past a short column's own length is the empty string; ragged
input produces no error (the function is total). -/
theorem C7_transposition (records : List (List String)) :
    (csvGrid false records).length = maxColLen records ∧
    (∀ col ∈ records, col.length ≤ maxColLen records) ∧
    (maxColLen records = 0 ∨ ∃ col ∈ records, maxColLen records = col.length) ∧
    (∀ r, r < maxColLen records →
      ((csvGrid false records).getD r []).length = records.length) ∧
    (∀ c r, c < records.length → r < (records.getD c []).length →
      gridCell (csvGrid false records) r c = (records.getD c []).getD r "") ∧
    (∀ c r, c < records.length → (records.getD c []).length ≤ r →
      gridCell (csvGrid false records) r c = "") := by
  have hlen : (csvGrid false records).length = maxColLen records := by
    unfold csvGrid
    rw [fillCols_length, emptyGrid_length]
  refine ⟨hlen, maxColLen_ge records, maxColLen_attained records, ?_, ?_, ?_⟩
  · intro r hr
    have hrl : r < (csvGrid false records).length := by omega
    have hrow : (csvGrid false records)[r]? = some ((csvGrid false records).get ⟨r, hrl⟩) := by
      rw [List.getElem?_eq_getElem hrl]
      rfl
    have hwf : gridWF (csvGrid false records) records.length := by
      unfold csvGrid
      exact fillCols_wf false records _ 0
        (emptyGrid_wf (maxColLen records) records.length)
    rw [List.getD_eq_getElem?_getD, hrow]
    exact hwf _ (List.getElem?_mem hrow)
  · intro c r hc hr
    rw [csvGrid_cell false records r c hc, if_pos ⟨hr, by simp⟩]
  · intro c r hc hr
    rw [csvGrid_cell false records r c hc, if_neg (by rintro ⟨h1, -⟩; omega)]

/-- C7 witness: the theorem applied to the ragged pair of columns
[a, b] and [c]: the grid is 2 by 2, cell (1,0) holds b and cell (1,1),
past the short column's length, is empty. -/
theorem C7_transposition_witness :
    (csvGrid false [["a", "b"], ["c"]]).length = maxColLen [["a", "b"], ["c"]] ∧
    gridCell (csvGrid false [["a", "b"], ["c"]]) 1 0 = "b" ∧
    gridCell (csvGrid false [["a", "b"], ["c"]]) 1 1 = "" := by
  refine ⟨(C7_transposition [["a", "b"], ["c"]]).1, ?_, ?_⟩
  · have h := (C7_transposition [["a", "b"], ["c"]]).2.2.2.2.1 0 1 (by decide) (by decide)
    exact h.trans (by decide)
  · exact (C7_transposition [["a", "b"], ["c"]]).2.2.2.2.2 1 1 (by decide) (by decide)

end Xl
